import Mathlib

/-!
Verification of the CroDynO cross-section fit classes (`fitclasses.py`).

The development shallowly embeds the mutable grid/cache state machine of
`CrossSectionFit` over an arbitrary linearly ordered type (instantiated at
`ℚ` for concrete witnesses and at `ℝ` for the concrete fit subclasses),
and embeds the `BarnettChebFit` Chebyshev pipeline and the Tabata
semi-empirical fit family over `ℝ`.

Python floats are modelled as exact numbers; the `np.NaN` sentinel produced
by `_allowed_energies` is modelled by an explicit constructor of `NpValue`,
and NaN propagation through the elementwise fit formulas is modelled by
`liftFit`.  Python exceptions are modelled by `PyError` values: the
`TypeError` raised for a bad domain is `invalidDomain`, the `TypeError`
raised by the `energy_space` setter is `invalidGrid`, and the `IndexError`
hit when an empty coefficient sequence is indexed is `indexError`.
-/

/-- Exceptions raised by the embedded fragment of `fitclasses.py`. -/
inductive PyError where
  | invalidDomain
  | invalidGrid
  | indexError
deriving DecidableEq

/-- A numpy value as used for `energy_space` and `_sigma`: a 0-d scalar,
a 1-d array, or the `np.NaN` sentinel returned by `_allowed_energies`. -/
inductive NpValue (α : Type) where
  | scalar : α → NpValue α
  | arr : List α → NpValue α
  | nan : NpValue α
deriving DecidableEq

/-- The argument accepted by the `energy_space` setter: an integer count,
a scalar, a one-dimensional array, or a value that fails the conversion
(more than one dimension / not numeric). -/
inductive GridValue (α : Type) where
  | count : ℕ → GridValue α
  | scalar : α → GridValue α
  | arr : List α → GridValue α
  | badArr : GridValue α
deriving DecidableEq

/-- The mutable state of a `CrossSectionFit` instance: `_domain`,
`_description`, `_energy_space`, `_energy_repr` and the cache `_sigma`. -/
structure CrossSectionFit (α : Type) where
  domain : α × α
  description : String
  energy_space : NpValue α
  energy_repr : GridValue α
  sigma : Option (NpValue α)
deriving DecidableEq

/-- `CrossSectionFit._allowed_energies`: a scalar is kept exactly when it
lies within the (inclusive) domain boundaries and replaced by `np.NaN`
otherwise; an array is filtered to the in-domain values, and `np.NaN` is
returned when nothing survives the filter. -/
def CrossSectionFit.allowed_energies {α : Type} [LinearOrder α]
    (domain : α × α) : NpValue α → NpValue α
  | .scalar x => if domain.1 ≤ x ∧ x ≤ domain.2 then .scalar x else .nan
  | .arr xs =>
      let valid := xs.filter fun v => decide (domain.1 ≤ v ∧ v ≤ domain.2)
      if valid.length > 0 then .arr valid else .nan
  | .nan => .nan

/-- The `energy_space` setter.  It first clears the cache (`_sigma = None`),
then: an integer produces a log-spaced array between the domain boundaries
(the log-spacing function `ls` is a parameter, `logspace` over `ℝ`); a
scalar or 1-d array goes through `_allowed_energies`; an unconvertible
value raises `invalidGrid` after the cache was already cleared, leaving
`_energy_space` and `_energy_repr` untouched. -/
def CrossSectionFit.energy_space_set {α : Type} [LinearOrder α]
    (ls : α → α → ℕ → List α) (fit : CrossSectionFit α) (value : GridValue α) :
    CrossSectionFit α × Option PyError :=
  let fit' := { fit with sigma := none }
  match value with
  | .count n =>
      ({ fit' with energy_space := .arr (ls fit'.domain.1 fit'.domain.2 n),
                   energy_repr := .count n }, none)
  | .scalar x =>
      ({ fit' with
          energy_space := CrossSectionFit.allowed_energies fit'.domain (.scalar x),
          energy_repr := .scalar x }, none)
  | .arr xs =>
      ({ fit' with
          energy_space := CrossSectionFit.allowed_energies fit'.domain (.arr xs),
          energy_repr := .arr xs }, none)
  | .badArr => (fit', some .invalidGrid)

/-- The tail of `CrossSectionFit.__call__` after the optional grid update:
if the cache is empty, apply the fit function to the current grid and store
the result; otherwise return the cached value.  The third component counts
how many times the underlying fit function was invoked. -/
def CrossSectionFit.evalStep {α : Type} (f : NpValue α → NpValue α)
    (fit : CrossSectionFit α) :
    Except PyError (NpValue α) × CrossSectionFit α × ℕ :=
  match fit.sigma with
  | some s => (.ok s, fit, 0)
  | none => (.ok (f fit.energy_space),
             { fit with sigma := some (f fit.energy_space) }, 1)

/-- `CrossSectionFit.__call__`: if energies are provided, run the
`energy_space` setter first (propagating its exception); then evaluate
lazily through `evalStep`.  `f` is the subclass's `_fit_function`. -/
def CrossSectionFit.call {α : Type} [LinearOrder α]
    (f : NpValue α → NpValue α) (ls : α → α → ℕ → List α)
    (fit : CrossSectionFit α) (energies : Option (GridValue α)) :
    Except PyError (NpValue α) × CrossSectionFit α × ℕ :=
  match energies with
  | none => CrossSectionFit.evalStep f fit
  | some v =>
      match CrossSectionFit.energy_space_set ls fit v with
      | (fit1, some e) => (.error e, fit1, 0)
      | (fit1, none) => CrossSectionFit.evalStep f fit1

/-- `CrossSectionFit.__init__`: reject a domain that is not a length-2
ordered pair, store the domain and description, then run the
`energy_space` setter on the initial grid value (its exception propagates
out of the constructor, so no object is produced). -/
def CrossSectionFit.init {α : Type} [LinearOrder α]
    (ls : α → α → ℕ → List α) (domain : List α) (description : String)
    (energy_space : GridValue α) : Except PyError (CrossSectionFit α) :=
  match domain with
  | [lo, hi] =>
      if lo ≤ hi then
        match CrossSectionFit.energy_space_set ls
            { domain := (lo, hi), description := description,
              energy_space := .nan, energy_repr := .badArr, sigma := none }
            energy_space with
        | (fit, none) => .ok fit
        | (_, some e) => .error e
      else .error .invalidDomain
  | _ => .error .invalidDomain

/-- Lift an elementwise (numpy-ufunc style) scalar fit formula to
`NpValue`: it maps over arrays and propagates the NaN sentinel, as the
arithmetic of every concrete `_fit_function` does in IEEE floats. -/
def liftFit {α : Type} (f : α → α) : NpValue α → NpValue α
  | .scalar x => .scalar (f x)
  | .arr xs => .arr (xs.map f)
  | .nan => .nan

/-- `np.logspace(*np.log10(domain), n)`: `n` samples of `10 ^ y` with `y`
linearly spaced between `log10 lo` and `log10 hi` (numpy divides the span
by `n - 1`). -/
noncomputable def logspace (lo hi : ℝ) (n : ℕ) : List ℝ :=
  (List.range n).map fun i =>
    (10 : ℝ) ^ (Real.logb 10 lo +
      (Real.logb 10 hi - Real.logb 10 lo) * i / ((n : ℝ) - 1))

/-- The state pair of numpy's Clenshaw recurrence `chebval`: for a
coefficient list `c`, the pair `(c0, c1)` after the backward iteration has
consumed all of `c`. -/
noncomputable def chebvalStep (x : ℝ) : List ℝ → ℝ × ℝ
  | [] => (0, 0)
  | [c0] => (c0, 0)
  | [c0, c1] => (c0, c1)
  | c :: rest =>
      let p := chebvalStep x rest
      (c - p.2, p.1 + p.2 * (2 * x))

/-- `np.polynomial.chebyshev.chebval`: Clenshaw evaluation of the
Chebyshev series with coefficients `c` at `x`. -/
noncomputable def chebval (x : ℝ) (c : List ℝ) : ℝ :=
  (chebvalStep x c).1 + (chebvalStep x c).2 * x

/-- `np.polynomial.Chebyshev.__call__` for a series with evaluation domain
`dom` and the default window `(-1, 1)`: the argument is first mapped by
the affine map with parameters `off`, `scl` from `polyutils.mapparms`,
then fed to `chebval`. -/
noncomputable def chebSeriesEval (coef : List ℝ) (dom : ℝ × ℝ) (x : ℝ) : ℝ :=
  let off := (dom.2 * (-1) - dom.1 * 1) / (dom.2 - dom.1)
  let scl := (1 - (-1)) / (dom.2 - dom.1)
  chebval (off + scl * x) coef

/-- The state of a `BarnettChebFit` instance on top of the base state. -/
structure BarnettChebFit where
  toCrossSectionFit : CrossSectionFit ℝ
  barnett_coefficients : List ℝ
  chebyshev_coefficients : List ℝ
  chebyshev_domain : ℝ × ℝ
  projectile_mass : ℝ

/-- The `domain` property of a `BarnettChebFit` (inherited accessor). -/
def BarnettChebFit.domain (f : BarnettChebFit) : ℝ × ℝ :=
  f.toCrossSectionFit.domain

/-- `BarnettChebFit.__init__`: multiply the eV/amu domain elementwise by
the projectile mass and run the base constructor on it; store the
published coefficients unchanged, halve the first coefficient for the
Chebyshev series, and record the series domain `np.log(self._domain)`.
Indexing an empty coefficient sequence raises (`IndexError`). -/
noncomputable def BarnettChebFit.init (domain : List ℝ) (description : String)
    (projectile_mass : ℝ) (barnett_coefficients : List ℝ)
    (energy_space : GridValue ℝ) : Except PyError BarnettChebFit :=
  match CrossSectionFit.init logspace (domain.map (· * projectile_mass))
      description energy_space with
  | .error e => .error e
  | .ok base =>
      match barnett_coefficients with
      | [] => .error .indexError
      | c0 :: cs =>
          .ok { toCrossSectionFit := base
                barnett_coefficients := c0 :: cs
                chebyshev_coefficients := c0 / 2 :: cs
                chebyshev_domain := (Real.log base.domain.1, Real.log base.domain.2)
                projectile_mass := projectile_mass }

/-- `BarnettChebFit._fit_function`:
`lambda x: np.exp(self._cheb_poly(np.log(x))) / 1e4`, with the Chebyshev
series given by the stored coefficients and domain. -/
noncomputable def BarnettChebFit.fit_function (f : BarnettChebFit) (x : ℝ) : ℝ :=
  Real.exp (chebSeriesEval f.chebyshev_coefficients f.chebyshev_domain
    (Real.log x)) / 1e4

/-- Halving the first element of a coefficient list (the Barnett-to-true
Chebyshev `T0` conversion, as worded by the spec). -/
noncomputable def halveFirst : List ℝ → List ℝ
  | [] => []
  | c :: cs => c / 2 :: cs

/-- The state of a Tabata fit instance on top of the base state. -/
structure TabataFitBase where
  toCrossSectionFit : CrossSectionFit ℝ
  activation_energy : ℝ
  tabata_coefficients : List ℝ

/-- `TabataFitBase.__init__`: run the base constructor on the domain, then
split the parameter vector into the threshold energy (first element, an
empty vector raises `IndexError`) and the coefficient tuple. -/
noncomputable def TabataFitBase.init (domain : List ℝ) (description : String)
    (tabata_parameters : List ℝ) (energy_space : GridValue ℝ) :
    Except PyError TabataFitBase :=
  match CrossSectionFit.init logspace domain description energy_space with
  | .error e => .error e
  | .ok base =>
      match tabata_parameters with
      | [] => .error .indexError
      | p0 :: ps =>
          .ok { toCrossSectionFit := base
                activation_energy := p0
                tabata_coefficients := ps }

/-- `self._tabata_coefficients[i]`: the coefficient `a(i+1)` in Tabata's
1-indexed naming (out-of-range reads are not exercised by the claims). -/
noncomputable def TabataFitBase.coef (t : TabataFitBase) (i : ℕ) : ℝ :=
  t.tabata_coefficients.getD i 0

/-- `TabataFitBase._f1` with parameter set `(a1, a2)`:
`s0 * a1 * np.power(x / ryd, a2)` with `s0 = 1e-16` and `ryd = 1.361e1`. -/
noncomputable def TabataFitBase.f1 (t : TabataFitBase) (x : ℝ) : ℝ :=
  1e-16 * t.coef 0 * (x / 1.361e1) ^ t.coef 1

/-- `TabataFitBase._f2` with parameter set `(a1, a2, a3, a4)`:
`f1(x) / (1 + np.power(x * 1e-3 / a3, a2 + a4))`. -/
noncomputable def TabataFitBase.f2 (t : TabataFitBase) (x : ℝ) : ℝ :=
  t.f1 x / (1 + (x * 1e-3 / t.coef 2) ^ (t.coef 1 + t.coef 3))

/-- `TabataFit1._fit_function`:
`lambda x: self._f2(x - self._activation_energy) / 1e4`. -/
noncomputable def TabataFit1.fit_function (t : TabataFitBase) (x : ℝ) : ℝ :=
  t.f2 (x - t.activation_energy) / 1e4

/-- `TabataFit2._fit_function`:
`lambda x: (self._f2(x - Eth) + a5 * self._f2((x - Eth) / a6)) / 1e4`
with `a5 = self._tabata_coefficients[4]`, `a6 = self._tabata_coefficients[5]`. -/
noncomputable def TabataFit2.fit_function (t : TabataFitBase) (x : ℝ) : ℝ :=
  (t.f2 (x - t.activation_energy) +
    t.coef 4 * t.f2 ((x - t.activation_energy) / t.coef 5)) / 1e4

/-- Tabata's `f1` primitive exactly as the spec words it, with the
coefficients as explicit arguments: `f1(x) = 1e-16 * a1 * (x/13.61)^a2`. -/
noncomputable def specTabataF1 (a1 a2 : ℝ) (x : ℝ) : ℝ :=
  1e-16 * a1 * (x / 13.61) ^ a2

/-- Tabata's `f2` primitive exactly as the spec words it:
`f2(x) = f1(x) / (1 + (x*1e-3/a3)^(a2+a4))`. -/
noncomputable def specTabataF2 (a1 a2 a3 a4 : ℝ) (x : ℝ) : ℝ :=
  specTabataF1 a1 a2 x / (1 + (x * 1e-3 / a3) ^ (a2 + a4))

/-- The energy-space setter never touches the stored domain or description. -/
theorem energy_space_set_keeps_domain {α : Type} [LinearOrder α]
    (ls : α → α → ℕ → List α) (fit : CrossSectionFit α) (v : GridValue α) :
    ((CrossSectionFit.energy_space_set ls fit v).1).domain = fit.domain ∧
    ((CrossSectionFit.energy_space_set ls fit v).1).description = fit.description := by
  cases v <;> exact ⟨rfl, rfl⟩

/-- A sample curve state over `ℚ` used by the concrete witnesses. -/
def fitQ : CrossSectionFit ℚ :=
  { domain := (1, 5), description := "w", energy_space := .arr [2, 3],
    energy_repr := .count 2, sigma := none }

/-- C1: for every curve instance, the first `evaluate()` call with an empty
cache computes `fit_function` on the current grid, stores it and reports one
invocation; an immediate second call with no grid change returns the
identical cached result with zero further invocations and leaves the state
unchanged; and in general any call on a state with a cached value returns
that stored value without invoking the fit function. -/
theorem call_caches_result {α : Type} [LinearOrder α]
    (f : NpValue α → NpValue α) (ls : α → α → ℕ → List α)
    (fit : CrossSectionFit α) (h : fit.sigma = none) :
    CrossSectionFit.call f ls fit none =
      (.ok (f fit.energy_space),
       { fit with sigma := some (f fit.energy_space) }, 1) ∧
    CrossSectionFit.call f ls { fit with sigma := some (f fit.energy_space) } none =
      (.ok (f fit.energy_space),
       { fit with sigma := some (f fit.energy_space) }, 0) ∧
    ∀ (fit2 : CrossSectionFit α) (s : NpValue α), fit2.sigma = some s →
      CrossSectionFit.call f ls fit2 none = (.ok s, fit2, 0) := by
  refine ⟨?_, rfl, fun fit2 s h2 => ?_⟩
  · simp [CrossSectionFit.call, CrossSectionFit.evalStep, h]
  · simp [CrossSectionFit.call, CrossSectionFit.evalStep, h2]

/-- Witness for C1 at a concrete `ℚ`-valued state with an empty cache. -/
theorem call_caches_result_witness :
    fitQ.sigma = none ∧
    CrossSectionFit.call (liftFit id) (fun _ _ _ => []) fitQ none =
      (.ok (liftFit id fitQ.energy_space),
       { fitQ with sigma := some (liftFit id fitQ.energy_space) }, 1) :=
  ⟨rfl, (call_caches_result (liftFit id) (fun _ _ _ => []) fitQ rfl).1⟩

/-- C10: assigning an invalid grid value clears the cache before the value
is validated, so the failed assignment is not atomic: it reports
`invalidGrid`, the grid keeps its previous value, the cache is empty, and
the next `evaluate()` recomputes the fit function (one invocation) on the
old grid. -/
theorem grid_set_clears_cache_first {α : Type} [LinearOrder α]
    (ls : α → α → ℕ → List α) (fit : CrossSectionFit α)
    (f : NpValue α → NpValue α) :
    CrossSectionFit.energy_space_set ls fit .badArr =
      ({ fit with sigma := none }, some .invalidGrid) ∧
    ((CrossSectionFit.energy_space_set ls fit .badArr).1).energy_space =
      fit.energy_space ∧
    ((CrossSectionFit.energy_space_set ls fit .badArr).1).sigma = none ∧
    CrossSectionFit.call f ls ((CrossSectionFit.energy_space_set ls fit .badArr).1) none =
      (.ok (f fit.energy_space), { fit with sigma := some (f fit.energy_space) }, 1) :=
  ⟨rfl, rfl, rfl, rfl⟩

/-- C7: assigning a one-dimensional array grid keeps exactly the values
inside the closed domain interval, in their original relative order (the
kept list is a sublist of the input whose members are exactly the in-domain
input values), provided at least one value is in the domain. -/
theorem array_grid_filtered_in_order {α : Type} [LinearOrder α]
    (ls : α → α → ℕ → List α) (fit : CrossSectionFit α) (xs : List α)
    (h : ∃ v ∈ xs, fit.domain.1 ≤ v ∧ v ≤ fit.domain.2) :
    ((CrossSectionFit.energy_space_set ls fit (.arr xs)).1).energy_space =
      .arr (xs.filter fun v => decide (fit.domain.1 ≤ v ∧ v ≤ fit.domain.2)) ∧
    (xs.filter fun v => decide (fit.domain.1 ≤ v ∧ v ≤ fit.domain.2)).Sublist xs ∧
    ∀ v, v ∈ xs.filter (fun v => decide (fit.domain.1 ≤ v ∧ v ≤ fit.domain.2)) ↔
      v ∈ xs ∧ fit.domain.1 ≤ v ∧ v ≤ fit.domain.2 := by
  refine ⟨?_, List.filter_sublist xs, fun v => by simp [List.mem_filter]⟩
  obtain ⟨v, hv, hd⟩ := h
  have hmem : v ∈ xs.filter fun v => decide (fit.domain.1 ≤ v ∧ v ≤ fit.domain.2) :=
    List.mem_filter.2 ⟨hv, by simp [hd.1, hd.2]⟩
  have hne : (xs.filter fun v => decide (fit.domain.1 ≤ v ∧ v ≤ fit.domain.2)).length > 0 :=
    List.length_pos.2 (List.ne_nil_of_mem hmem)
  show CrossSectionFit.allowed_energies fit.domain (.arr xs) = _
  simp only [CrossSectionFit.allowed_energies]
  rw [if_pos hne]

/-- Witness for C7 at a concrete `ℚ`-valued grid partially outside the
domain `(1, 5)`. -/
theorem array_grid_filtered_in_order_witness :
    (∃ v ∈ [(0 : ℚ), 2, 7, 3], fitQ.domain.1 ≤ v ∧ v ≤ fitQ.domain.2) ∧
    ((CrossSectionFit.energy_space_set (fun _ _ _ => []) fitQ
        (.arr [(0 : ℚ), 2, 7, 3])).1).energy_space = .arr [2, 3] := by
  refine ⟨by decide, ?_⟩
  have h := (array_grid_filtered_in_order (fun _ _ _ => []) fitQ
    [(0 : ℚ), 2, 7, 3] ⟨2, by decide, by decide⟩).1
  rw [h]
  decide

/-- C8: a scalar grid value outside the domain is replaced by the single
`np.NaN` sentinel; an array grid filtered down to nothing is replaced by
the very same sentinel (no separate empty-array semantics); and evaluating
on such a grid returns the sentinel itself — never a computed
cross-section number, since the elementwise fit formula propagates NaN. -/
theorem out_of_domain_scalar_sentinel {α : Type} [LinearOrder α]
    (ls : α → α → ℕ → List α) (fit : CrossSectionFit α)
    (x : α) (xs : List α) (f : α → α)
    (hx : ¬(fit.domain.1 ≤ x ∧ x ≤ fit.domain.2))
    (hxs : xs.filter (fun v => decide (fit.domain.1 ≤ v ∧ v ≤ fit.domain.2)) = []) :
    ((CrossSectionFit.energy_space_set ls fit (.scalar x)).1).energy_space = .nan ∧
    ((CrossSectionFit.energy_space_set ls fit (.arr xs)).1).energy_space = .nan ∧
    (CrossSectionFit.call (liftFit f) ls fit (some (.scalar x))).1 = .ok .nan := by
  have h1 : CrossSectionFit.allowed_energies fit.domain (.scalar x) = (.nan : NpValue α) := by
    simp only [CrossSectionFit.allowed_energies]
    rw [if_neg hx]
  have h2 : CrossSectionFit.allowed_energies fit.domain (.arr xs) = (.nan : NpValue α) := by
    simp only [CrossSectionFit.allowed_energies]
    rw [hxs]
    rfl
  refine ⟨?_, ?_, ?_⟩
  · show CrossSectionFit.allowed_energies fit.domain (.scalar x) = _
    exact h1
  · show CrossSectionFit.allowed_energies fit.domain (.arr xs) = _
    exact h2
  · show Except.ok (liftFit f (CrossSectionFit.allowed_energies fit.domain (.scalar x))) = _
    rw [h1]
    rfl

/-- Witness for C8 at the concrete scalar `7` and array `[0, 7]`, both
outside the domain `(1, 5)`. -/
theorem out_of_domain_scalar_sentinel_witness :
    ¬((fitQ.domain.1 ≤ (7 : ℚ)) ∧ (7 : ℚ) ≤ fitQ.domain.2) ∧
    ((CrossSectionFit.energy_space_set (fun _ _ _ => []) fitQ
        (.scalar (7 : ℚ))).1).energy_space = .nan ∧
    ((CrossSectionFit.energy_space_set (fun _ _ _ => []) fitQ
        (.arr [(0 : ℚ), 7])).1).energy_space = .nan ∧
    (CrossSectionFit.call (liftFit id) (fun _ _ _ => []) fitQ
        (some (.scalar (7 : ℚ)))).1 = .ok .nan := by
  have h := out_of_domain_scalar_sentinel (fun _ _ _ => []) fitQ 7 [(0 : ℚ), 7] id
    (by decide) (by decide)
  exact ⟨by decide, h.1, h.2.1, h.2.2⟩

/-- C6: constructing a base curve with a length-2 ordered domain pair
(`lo ≤ hi`) and the default integer grid never fails and stores exactly
that domain (and description); the constructor fails with `invalidDomain`
exactly when the domain is unordered or not of length 2. -/
theorem init_domain_validation {α : Type} [LinearOrder α]
    (ls : α → α → ℕ → List α) (lo hi : α) (d : List α)
    (desc : String) (n : ℕ) :
    (lo ≤ hi → CrossSectionFit.init ls [lo, hi] desc (.count n) =
      .ok { domain := (lo, hi), description := desc,
            energy_space := .arr (ls lo hi n), energy_repr := .count n,
            sigma := none }) ∧
    (hi < lo → CrossSectionFit.init ls [lo, hi] desc (.count n) =
      .error .invalidDomain) ∧
    (d.length ≠ 2 → CrossSectionFit.init ls d desc (.count n) =
      .error .invalidDomain) := by
  refine ⟨fun h => ?_, fun h => ?_, fun h => ?_⟩
  · simp [CrossSectionFit.init, CrossSectionFit.energy_space_set, h]
  · simp [CrossSectionFit.init, not_le.2 h]
  · rcases d with _ | ⟨a, _ | ⟨b, _ | ⟨c, rest⟩⟩⟩
    · rfl
    · rfl
    · exact absurd rfl h
    · rfl

/-- Witness for C6 over `ℚ`: a valid domain constructs with that domain,
an unordered pair and a length-3 list fail with `invalidDomain`. -/
theorem init_domain_validation_witness :
    CrossSectionFit.init (fun _ _ _ => ([] : List ℚ)) [1, 5] "d" (.count 7) =
      .ok { domain := (1, 5), description := "d", energy_space := .arr [],
            energy_repr := .count 7, sigma := none } ∧
    CrossSectionFit.init (fun _ _ _ => ([] : List ℚ)) [5, 1] "d" (.count 7) =
      .error .invalidDomain ∧
    CrossSectionFit.init (fun _ _ _ => ([] : List ℚ)) [1, 2, 3] "d" (.count 7) =
      .error .invalidDomain :=
  ⟨(init_domain_validation (fun _ _ _ => []) 1 5 [] "d" 7).1 (by decide),
   (init_domain_validation (fun _ _ _ => []) 5 1 [] "d" 7).2.1 (by decide),
   (init_domain_validation (fun _ _ _ => []) 1 5 [1, 2, 3] "d" 7).2.2 (by decide)⟩

/-- Inversion of a successful base construction on a two-element domain:
the stored domain is the input pair and the description is kept. -/
theorem CrossSectionFit.init_ok_fields {α : Type} [LinearOrder α]
    {ls : α → α → ℕ → List α} {a b : α} {desc : String}
    {es : GridValue α} {fit : CrossSectionFit α}
    (h : CrossSectionFit.init ls [a, b] desc es = .ok fit) :
    fit.domain = (a, b) ∧ fit.description = desc := by
  simp only [CrossSectionFit.init] at h
  by_cases hab : a ≤ b
  · rw [if_pos hab] at h
    set st0 : CrossSectionFit α :=
      { domain := (a, b), description := desc,
        energy_space := .nan, energy_repr := .badArr, sigma := none } with hst0
    rcases hv : CrossSectionFit.energy_space_set ls st0 es with ⟨fit1, err⟩
    rw [hv] at h
    cases err with
    | none =>
        cases h
        have := energy_space_set_keeps_domain ls st0 es
        rw [hv] at this
        exact this
    | some e => exact absurd h (by simp)
  · rw [if_neg hab] at h
    exact absurd h (by simp)

/-- Inversion of a successful `BarnettChebFit` construction: the base was
built on the mass-converted domain, the coefficient list is nonempty, and
the derived fields are exactly those stored by the constructor. -/
theorem BarnettChebFit.init_ok {d : List ℝ} {desc : String} {m : ℝ}
    {coeffs : List ℝ} {es : GridValue ℝ} {fit : BarnettChebFit}
    (h : BarnettChebFit.init d desc m coeffs es = .ok fit) :
    ∃ base c0 cs,
      CrossSectionFit.init logspace (d.map (· * m)) desc es = .ok base ∧
      coeffs = c0 :: cs ∧
      fit = { toCrossSectionFit := base,
              barnett_coefficients := c0 :: cs,
              chebyshev_coefficients := c0 / 2 :: cs,
              chebyshev_domain := (Real.log base.domain.1, Real.log base.domain.2),
              projectile_mass := m } := by
  unfold BarnettChebFit.init at h
  rcases hbase : CrossSectionFit.init logspace (d.map (· * m)) desc es with e | base
  · rw [hbase] at h
    exact absurd h (by simp)
  · rw [hbase] at h
    cases coeffs with
    | nil => exact absurd h (by simp)
    | cons c0 cs =>
        cases h
        exact ⟨base, c0, cs, rfl, rfl, rfl⟩

/-- C5: every successfully constructed Chebyshev fit with input domain
`(lo, hi)` and scalar projectile mass `m` stores the elementwise product
`(lo * m, hi * m)` as its domain. -/
theorem chebfit_domain_mass_conversion (lo hi m : ℝ) (desc : String)
    (coeffs : List ℝ) (es : GridValue ℝ) (fit : BarnettChebFit)
    (h : BarnettChebFit.init [lo, hi] desc m coeffs es = .ok fit) :
    fit.domain = (lo * m, hi * m) := by
  obtain ⟨base, c0, cs, hbase, -, rfl⟩ := BarnettChebFit.init_ok h
  simp only [List.map_cons, List.map_nil] at hbase
  exact (CrossSectionFit.init_ok_fields hbase).1

/-- C2: the fit function of every successfully constructed Chebyshev fit
is `E ↦ exp(C(ln E)) / 1e4` where `C` is the Chebyshev series whose
coefficients are the input coefficients with the first one halved and
whose evaluation domain is the natural log of the mass-converted energy
domain. -/
theorem chebfit_fit_function_formula (lo hi m : ℝ) (desc : String)
    (coeffs : List ℝ) (es : GridValue ℝ) (fit : BarnettChebFit)
    (h : BarnettChebFit.init [lo, hi] desc m coeffs es = .ok fit) (E : ℝ) :
    fit.fit_function E =
      Real.exp (chebSeriesEval (halveFirst coeffs)
        (Real.log (lo * m), Real.log (hi * m)) (Real.log E)) / 1e4 := by
  obtain ⟨base, c0, cs, hbase, rfl, rfl⟩ := BarnettChebFit.init_ok h
  simp only [List.map_cons, List.map_nil] at hbase
  have hdom := (CrossSectionFit.init_ok_fields hbase).1
  simp [BarnettChebFit.fit_function, halveFirst, hdom]

/-- C4: after a successful Chebyshev-fit construction, the first stored
Chebyshev coefficient is half the first supplied Barnett coefficient,
every further Chebyshev coefficient equals the supplied one at the same
index, and the exposed Barnett coefficients are the unhalved originals. -/
theorem chebfit_coefficients_halved (d : List ℝ) (desc : String) (m : ℝ)
    (coeffs : List ℝ) (es : GridValue ℝ) (fit : BarnettChebFit)
    (h : BarnettChebFit.init d desc m coeffs es = .ok fit) :
    fit.barnett_coefficients = coeffs ∧
    fit.chebyshev_coefficients.get? 0 = (coeffs.get? 0).map (· / 2) ∧
    ∀ i, 1 ≤ i → fit.chebyshev_coefficients.get? i = coeffs.get? i := by
  obtain ⟨base, c0, cs, hbase, rfl, rfl⟩ := BarnettChebFit.init_ok h
  refine ⟨rfl, rfl, fun i hi => ?_⟩
  cases i with
  | zero => exact absurd hi (by simp)
  | succ j => rfl

/-- The seven Barnett coefficients of the spec's concrete scenario. -/
noncomputable def sampleBarnett : List ℝ :=
  [-74.4493, 0.351878, -0.249279, 0.0781924, -0.0295527, 0.00853617,
   -0.00490330]

/-- The `BarnettChebFit` state produced by the spec's concrete scenario:
domain `(1.6, 5.0)` eV/amu, projectile mass `2`, default integer grid. -/
noncomputable def sampleChebFit : BarnettChebFit :=
  { toCrossSectionFit :=
      { domain := (1.6 * 2, 5.0 * 2), description := "s",
        energy_space := .arr (logspace (1.6 * 2) (5.0 * 2) 5000),
        energy_repr := .count 5000, sigma := none }
    barnett_coefficients := sampleBarnett
    chebyshev_coefficients :=
      -74.4493 / 2 :: [0.351878, -0.249279, 0.0781924, -0.0295527,
        0.00853617, -0.00490330]
    chebyshev_domain := (Real.log (1.6 * 2), Real.log (5.0 * 2))
    projectile_mass := 2 }

/-- The spec's concrete Chebyshev scenario constructs successfully and
produces exactly `sampleChebFit`. -/
theorem sampleChebFit_init :
    BarnettChebFit.init [1.6, 5.0] "s" 2 sampleBarnett (.count 5000) =
      .ok sampleChebFit := by
  have h : (1.6 : ℝ) * 2 ≤ 5.0 * 2 := by norm_num
  simp only [BarnettChebFit.init, CrossSectionFit.init, List.map_cons,
    List.map_nil, CrossSectionFit.energy_space_set, if_pos h, sampleBarnett]
  rfl

/-- Witness for C5: the scenario fit reports domain `(3.2, 10.0)`. -/
theorem chebfit_domain_mass_conversion_witness :
    BarnettChebFit.init [1.6, 5.0] "s" 2 sampleBarnett (.count 5000) =
      .ok sampleChebFit ∧
    sampleChebFit.domain = (3.2, 10.0) := by
  refine ⟨sampleChebFit_init, ?_⟩
  have h := chebfit_domain_mass_conversion 1.6 5.0 2 "s" sampleBarnett
    (.count 5000) sampleChebFit sampleChebFit_init
  rw [h]
  norm_num

/-- Witness for C2: the scenario fit's function at `E = 4` is the halved
Chebyshev series over the log domain, exponentiated and divided by 1e4. -/
theorem chebfit_fit_function_formula_witness :
    BarnettChebFit.init [1.6, 5.0] "s" 2 sampleBarnett (.count 5000) =
      .ok sampleChebFit ∧
    sampleChebFit.fit_function 4 =
      Real.exp (chebSeriesEval (halveFirst sampleBarnett)
        (Real.log (1.6 * 2), Real.log (5.0 * 2)) (Real.log 4)) / 1e4 :=
  ⟨sampleChebFit_init,
   chebfit_fit_function_formula 1.6 5.0 2 "s" sampleBarnett (.count 5000)
     sampleChebFit sampleChebFit_init 4⟩

/-- Witness for C4: on the scenario coefficients, index 0 is halved and
index 3 is kept verbatim. -/
theorem chebfit_coefficients_halved_witness :
    BarnettChebFit.init [1.6, 5.0] "s" 2 sampleBarnett (.count 5000) =
      .ok sampleChebFit ∧
    sampleChebFit.barnett_coefficients = sampleBarnett ∧
    sampleChebFit.chebyshev_coefficients.get? 0 =
      (sampleBarnett.get? 0).map (· / 2) ∧
    sampleChebFit.chebyshev_coefficients.get? 3 = sampleBarnett.get? 3 := by
  have h := chebfit_coefficients_halved [1.6, 5.0] "s" 2 sampleBarnett
    (.count 5000) sampleChebFit sampleChebFit_init
  exact ⟨sampleChebFit_init, h.1, h.2.1, h.2.2 3 (by norm_num)⟩

/-- C3: the variant #2 fit function is, for every fit state and energy,
`(f2(E - Eth) + a5 * f2((E - Eth) / a6)) / 1e4` with the spec's own `f2`
and `f1` formulas instantiated at the coefficients `a1..a4` of the stored
tuple (`a1` being index 0). -/
theorem tabata2_fit_function_formula (t : TabataFitBase) (E : ℝ) :
    TabataFit2.fit_function t E =
      (specTabataF2 (t.coef 0) (t.coef 1) (t.coef 2) (t.coef 3)
          (E - t.activation_energy) +
        t.coef 4 * specTabataF2 (t.coef 0) (t.coef 1) (t.coef 2) (t.coef 3)
          ((E - t.activation_energy) / t.coef 5)) / 1e4 := by
  norm_num [TabataFit2.fit_function, TabataFitBase.f2, TabataFitBase.f1,
    specTabataF2, specTabataF1]

/-- The Tabata state of the spec's concrete variant #1 scenario:
`tabata_parameters = (20.0, 2.53e-4, 1.728, 2.164, 0.774, 1.639, 14.3)`. -/
noncomputable def sampleTabata : TabataFitBase :=
  { toCrossSectionFit :=
      { domain := (20, 100000), description := "t1",
        energy_space := .arr (logspace 20 100000 5000),
        energy_repr := .count 5000, sigma := none }
    activation_energy := 20
    tabata_coefficients := [2.53e-4, 1.728, 2.164, 0.774, 1.639, 14.3] }

/-- The spec's concrete Tabata scenario constructs successfully and
produces exactly `sampleTabata`. -/
theorem sampleTabata_init :
    TabataFitBase.init [20, 100000] "t1"
      [20, 2.53e-4, 1.728, 2.164, 0.774, 1.639, 14.3] (.count 5000) =
      .ok sampleTabata := by
  have h : (20 : ℝ) ≤ 100000 := by norm_num
  simp only [TabataFitBase.init, CrossSectionFit.init,
    CrossSectionFit.energy_space_set, if_pos h]
  rfl

/-- C9: the variant #1 fit built from the scenario parameters evaluates at
the activation energy itself (so `x = 0`) to the well-defined value `0`:
`0` raised to the positive exponent `a2 = 1.728` is `0`, so `f1(0) = 0`
and `f2(0) = 0`. -/
theorem tabata1_threshold_evaluates_to_zero :
    TabataFitBase.init [20, 100000] "t1"
      [20, 2.53e-4, 1.728, 2.164, 0.774, 1.639, 14.3] (.count 5000) =
      .ok sampleTabata ∧
    sampleTabata.activation_energy = 20 ∧
    TabataFit1.fit_function sampleTabata 20 = 0 := by
  refine ⟨sampleTabata_init, rfl, ?_⟩
  have hc1 : sampleTabata.coef 1 = 1.728 := rfl
  have hc1ne : sampleTabata.coef 1 ≠ 0 := by rw [hc1]; norm_num
  have e1 : (20 : ℝ) - sampleTabata.activation_energy = 0 := by
    show (20 : ℝ) - 20 = 0
    norm_num
  have e2 : ((0 : ℝ) / 1.361e1) = 0 := zero_div _
  have e3 : (0 : ℝ) ^ sampleTabata.coef 1 = 0 := Real.zero_rpow hc1ne
  simp [TabataFit1.fit_function, TabataFitBase.f2, TabataFitBase.f1,
    e1, e2, e3]
